import Mathlib

/-!
Shallow embedding of the cleanup engine of `aws-janitor` (package `action`):
`cleanup_enis.go`, `cleanup_vpc.go` (including `waitUntil`) and
`cleanup_elbv2.go`.  Each cleaner is modelled as a pure function from the
commit flag, the scope's ignore-tag name and a provider environment (the
responses the AWS API would give) to the sequence of mutating provider calls
it issues together with its returned error (`none` = nil error).  Read-only
calls (describes, waiters) are part of the environment, not of the trace.
-/

namespace AwsJanitor

/-- An AWS tag: a key/value pair. -/
structure Tag where
  key : String
  value : String
deriving DecidableEq, Repr

/-- Modelled from the spec: `DeletionTag` is the well-known constant tag key
(declared in the `action` package outside the provided sources) whose presence
marks a resource as approved for deletion on a later pass.  Its concrete
string value is immaterial to every claim; only key comparisons matter. -/
def DeletionTag : String := "aws-janitor/marked-for-deletion"

/-- `aws.BoolValue`: dereference a possibly-nil `*bool`, nil meaning false. -/
def awsBoolValue (o : Option Bool) : Bool := o.getD false

/-- Does the tag list contain a tag with the given key? -/
def hasTagKey (tags : List Tag) (k : String) : Bool := tags.any (fun t => t.key == k)

/-- Every mutating provider call the cleaners can issue. -/
inductive Call
  | createTags (resource : String) (tagKey : String)
  | deleteNetworkInterface (id : String)
  | deleteVpc (id : String)
  | deleteNatGateway (id : String)
  | detachInternetGateway (igw : String) (vpc : String)
  | deleteInternetGateway (id : String)
  | deleteRouteTable (id : String)
  | deleteSubnet (id : String)
  | addTags (arn : String) (tagKey : String)
  | deleteLoadBalancer (arn : String)
  | deleteTargetGroup (arn : String)
deriving DecidableEq, Repr

/-- The outcome of one `clean*` pass: the mutating calls issued, in order,
and the Go error returned (`none` = nil). -/
structure CleanResult where
  trace : List Call
  result : Option String
deriving DecidableEq, Repr

/-- `true` exactly on `Except.error`. -/
def isError {α : Type} (e : Except String α) : Bool :=
  match e with
  | .error _ => true
  | .ok _ => false

/-- One step of the tag-scanning `switch` shared by the ENI and ELBv2
cleaners: first case `input.IgnoreTag` sets `ignore`, second case
`DeletionTag` sets `markedForDeletion`; cases are tried in order. -/
def tagSwitch2 (ignoreTag : String) (fl : Bool × Bool) (t : Tag) : Bool × Bool :=
  if t.key == ignoreTag then (true, fl.2)
  else if t.key == DeletionTag then (fl.1, true)
  else fl

/-- Fold of `tagSwitch2` over a tag list starting from accumulated flags. -/
def scanTags2From (ignoreTag : String) (fl : Bool × Bool) (tags : List Tag) : Bool × Bool :=
  tags.foldl (tagSwitch2 ignoreTag) fl

/-- The `(ignore, markedForDeletion)` flags computed by the tag loop of
`cleanNetworkInterfaces` (and, per tag description, `cleanLoadBalancersV2`). -/
def scanTags2 (ignoreTag : String) (tags : List Tag) : Bool × Bool :=
  scanTags2From ignoreTag (false, false) tags

/-! ## Network interfaces (`cleanup_enis.go`) -/

/-- An EC2 network interface as the cleaner reads it. -/
structure NetworkInterface where
  networkInterfaceId : String
  tagSet : List Tag
deriving DecidableEq, Repr

/-- Provider responses consumed by `cleanNetworkInterfaces`.  Failures of the
mutating calls only get logged and change no control flow, so they need no
environment fields. -/
structure ENIEnv where
  describeNetworkInterfaces : Except String (List NetworkInterface)

/-- The loop body of `cleanNetworkInterfaces` for one interface: scan tags,
skip if ignored, mark (when commit) if unmarked, otherwise delete unless in
dry-run. -/
def processNetworkInterface (commit : Bool) (ignoreTag : String)
    (ni : NetworkInterface) : List Call :=
  let fl := scanTags2 ignoreTag ni.tagSet
  if fl.1 then []
  else if !fl.2 then
    if commit then [Call.createTags ni.networkInterfaceId DeletionTag] else []
  else if !commit then []
  else [Call.deleteNetworkInterface ni.networkInterfaceId]

/-- `cleanNetworkInterfaces`: describe available interfaces (single,
unpaginated call); on failure return the wrapped error; otherwise process
each interface in order and return nil. -/
def cleanNetworkInterfaces (commit : Bool) (ignoreTag : String)
    (env : ENIEnv) : CleanResult :=
  match env.describeNetworkInterfaces with
  | .error e => ⟨[], some ("failed to describe network interfaces: " ++ e)⟩
  | .ok nis =>
    if nis.length == 0 then ⟨[], none⟩
    else ⟨(nis.map (processNetworkInterface commit ignoreTag)).flatten, none⟩

/-! ## VPCs and their dependencies (`cleanup_vpc.go`) -/

/-- An EC2 VPC as the cleaner reads it (`IsDefault` is a possibly-nil
`*bool`). -/
structure Vpc where
  vpcId : String
  tags : List Tag
  isDefault : Option Bool
deriving DecidableEq, Repr

/-- The three flags computed by the tag loop of `cleanVPCs`. -/
structure VpcFlags where
  ignore : Bool
  markedForDeletion : Bool
  managedByCloudFormation : Bool
deriving DecidableEq, Repr

/-- One step of the `switch` in `cleanVPCs`: `input.IgnoreTag`, then
`DeletionTag`, then the two CloudFormation stack keys; cases tried in
order. -/
def vpcTagSwitch (ignoreTag : String) (fl : VpcFlags) (t : Tag) : VpcFlags :=
  if t.key == ignoreTag then { fl with ignore := true }
  else if t.key == DeletionTag then { fl with markedForDeletion := true }
  else if t.key == "aws:cloudformation:stack-name" ||
      t.key == "aws:cloudformation:stack-id" then
    { fl with managedByCloudFormation := true }
  else fl

/-- The tag loop of `cleanVPCs` over one VPC's tags. -/
def scanVpcTags (ignoreTag : String) (tags : List Tag) : VpcFlags :=
  tags.foldl (vpcTagSwitch ignoreTag) ⟨false, false, false⟩

/-- An EC2 route table as `deleteRouteTables` reads it: its id and the
`Main` flag (a possibly-nil `*bool`) of each of its associations. -/
structure RouteTable where
  routeTableId : String
  associationsMain : List (Option Bool)
deriving DecidableEq, Repr

/-- Provider responses consumed by `cleanVPCs` and the dependency-teardown
helpers.  `describeVpcsPages` are the pages delivered to the page callback,
after which pagination either succeeds or fails with `describeVpcsErr`
(the SDK runs the callback on every page it managed to fetch).  The
per-vpc describe functions model the filtered dependency listings;
`detachIgwFails` and `deleteVpcFails` model the two mutating calls whose
failure changes control flow. -/
structure VpcEnv where
  describeVpcsPages : List (List Vpc)
  describeVpcsErr : Option String
  describeNatGateways : String → Except String (List String)
  describeInternetGateways : String → Except String (List String)
  detachIgwFails : String → Bool
  describeRouteTables : String → Except String (List RouteTable)
  describeSubnets : String → Except String (List String)
  deleteVpcFails : String → Bool

/-- The page-callback loop body of `cleanVPCs` for one VPC: the calls it
issues (a `CreateTags` mark when unmarked and commit) and whether the VPC
is appended to `vpcsToDelete`. -/
def vpcMarkStep (commit : Bool) (ignoreTag : String) (vpc : Vpc) :
    List Call × Bool :=
  let fl := scanVpcTags ignoreTag vpc.tags
  if fl.ignore || awsBoolValue vpc.isDefault then ([], false)
  else if fl.managedByCloudFormation then ([], false)
  else if !fl.markedForDeletion then
    (if commit then [Call.createTags vpc.vpcId DeletionTag] else [], false)
  else ([], true)

/-- The `CreateTags` calls issued while the pages are drained. -/
def vpcMarkCalls (commit : Bool) (ignoreTag : String) (env : VpcEnv) : List Call :=
  (env.describeVpcsPages.flatten.map
    (fun v => (vpcMarkStep commit ignoreTag v).1)).flatten

/-- The `vpcsToDelete` worklist accumulated by the page callback. -/
def vpcWorklist (commit : Bool) (ignoreTag : String) (env : VpcEnv) : List Vpc :=
  env.describeVpcsPages.flatten.filter
    (fun v => (vpcMarkStep commit ignoreTag v).2)

/-- `deleteNATGateways`: describe available NAT gateways of the VPC; on
failure return the wrapped error; otherwise delete each (delete failures
only logged). -/
def deleteNATGateways (env : VpcEnv) (vpcId : String) :
    List Call × Option String :=
  match env.describeNatGateways vpcId with
  | .error e => ([], some ("failed to describe NAT gateways: " ++ e))
  | .ok ids => (ids.map Call.deleteNatGateway, none)

/-- The loop body of `deleteInternetGateways` for one gateway: detach, and
if the detach fails skip the delete (`continue`), otherwise delete. -/
def igwStep (env : VpcEnv) (vpcId : String) (igw : String) : List Call :=
  if env.detachIgwFails igw then [Call.detachInternetGateway igw vpcId]
  else [Call.detachInternetGateway igw vpcId, Call.deleteInternetGateway igw]

/-- `deleteInternetGateways`: describe gateways attached to the VPC; on
failure return the wrapped error; otherwise detach-then-delete each. -/
def deleteInternetGateways (env : VpcEnv) (vpcId : String) :
    List Call × Option String :=
  match env.describeInternetGateways vpcId with
  | .error e => ([], some ("failed to describe internet gateways: " ++ e))
  | .ok ids => ((ids.map (igwStep env vpcId)).flatten, none)

/-- The `isMain` loop of `deleteRouteTables`: true when some association has
`Main` set (nil meaning false). -/
def rtIsMain (rt : RouteTable) : Bool := rt.associationsMain.any awsBoolValue

/-- `deleteRouteTables`: describe the VPC's route tables; on failure return
the wrapped error; otherwise delete each table that is not main. -/
def deleteRouteTables (env : VpcEnv) (vpcId : String) :
    List Call × Option String :=
  match env.describeRouteTables vpcId with
  | .error e => ([], some ("failed to describe route tables: " ++ e))
  | .ok rts =>
    ((rts.filter (fun rt => !rtIsMain rt)).map
      (fun rt => Call.deleteRouteTable rt.routeTableId), none)

/-- `deleteSubnets`: describe the VPC's subnets; on failure return the
wrapped error; otherwise delete each. -/
def deleteSubnets (env : VpcEnv) (vpcId : String) :
    List Call × Option String :=
  match env.describeSubnets vpcId with
  | .error e => ([], some ("failed to describe subnets: " ++ e))
  | .ok ids => (ids.map Call.deleteSubnet, none)

/-- `cleanVPCDependencies`: run the four phases in order (each phase's error
is logged and dropped) and return nil. -/
def cleanVPCDependencies (env : VpcEnv) (vpcId : String) :
    List Call × Option String :=
  let nat := deleteNATGateways env vpcId
  let igw := deleteInternetGateways env vpcId
  let rt := deleteRouteTables env vpcId
  let sub := deleteSubnets env vpcId
  (nat.1 ++ igw.1 ++ rt.1 ++ sub.1, none)

/-- `deleteVPC`: tear down dependencies (a non-nil teardown error would only
be logged), then issue `DeleteVpc`; return its wrapped error on failure,
nil otherwise. -/
def deleteVPC (env : VpcEnv) (vpcId : String) : List Call × Option String :=
  let deps := cleanVPCDependencies env vpcId
  (deps.1 ++ [Call.deleteVpc vpcId],
    if env.deleteVpcFails vpcId then
      some ("failed to delete vpc " ++ vpcId) else deps.2)

/-- `cleanVPCs`: drain the paginated listing while marking and accumulating
the worklist; on a pagination error return the wrapped error; if the
worklist is empty return nil; otherwise delete each worklisted VPC unless
in dry-run (per-vpc failures only logged) and return nil. -/
def cleanVPCs (commit : Bool) (ignoreTag : String) (env : VpcEnv) : CleanResult :=
  let markCalls := vpcMarkCalls commit ignoreTag env
  let worklist := vpcWorklist commit ignoreTag env
  match env.describeVpcsErr with
  | some e => ⟨markCalls, some ("failed getting list of vpcs: " ++ e)⟩
  | none =>
    if worklist.length == 0 then ⟨markCalls, none⟩
    else
      ⟨markCalls ++ (worklist.map
        (fun v => if commit then (deleteVPC env v.vpcId).1 else [])).flatten,
        none⟩

/-! ## Load balancers (`cleanup_elbv2.go`) -/

/-- An ELBv2 load balancer as the cleaner reads it. -/
structure LoadBalancer where
  loadBalancerArn : String
  loadBalancerName : String
deriving DecidableEq, Repr

/-- Provider responses consumed by `cleanLoadBalancersV2`.  `describeTags`
returns, per load balancer ARN, the tag lists of the returned tag
descriptions; `describeTargetGroups` the target-group ARNs;
`deleteLoadBalancerFails` models the one mutating call whose failure changes
control flow. -/
structure ElbEnv where
  describeLoadBalancersPages : List (List LoadBalancer)
  describeLoadBalancersErr : Option String
  describeTags : String → Except String (List (List Tag))
  describeTargetGroups : String → Except String (List String)
  deleteLoadBalancerFails : String → Bool

/-- The nested tag loop of `cleanLoadBalancersV2` over the tag descriptions
returned for one load balancer. -/
def scanTagDescriptions (ignoreTag : String) (descs : List (List Tag)) :
    Bool × Bool :=
  descs.foldl (fun fl tags => scanTags2From ignoreTag fl tags) (false, false)

/-- The page-callback loop body of `cleanLoadBalancersV2` for one load
balancer: fetch its tags (on failure skip it), classify, mark when unmarked
and commit (`AddTags`), and report whether its ARN joins `lbsToDelete`. -/
def lbMarkStep (commit : Bool) (ignoreTag : String) (env : ElbEnv)
    (lb : LoadBalancer) : List Call × Bool :=
  match env.describeTags lb.loadBalancerArn with
  | .error _ => ([], false)
  | .ok descs =>
    let fl := scanTagDescriptions ignoreTag descs
    if fl.1 then ([], false)
    else if !fl.2 then
      (if commit then [Call.addTags lb.loadBalancerArn DeletionTag] else [],
        false)
    else ([], true)

/-- The `AddTags` calls issued while the pages are drained. -/
def lbMarkCalls (commit : Bool) (ignoreTag : String) (env : ElbEnv) : List Call :=
  (env.describeLoadBalancersPages.flatten.map
    (fun lb => (lbMarkStep commit ignoreTag env lb).1)).flatten

/-- The `lbsToDelete` worklist accumulated by the page callback. -/
def lbWorklist (commit : Bool) (ignoreTag : String) (env : ElbEnv) :
    List LoadBalancer :=
  env.describeLoadBalancersPages.flatten.filter
    (fun lb => (lbMarkStep commit ignoreTag env lb).2)

/-- `deleteLoadBalancerV2`: list the target groups (a failure is only a
warning and, the SDK output being the zero value, leaves the list empty);
issue `DeleteLoadBalancer`, returning its wrapped error on failure; then
best-effort wait (read-only) and delete each listed target group (failures
only logged). -/
def deleteLoadBalancerV2 (env : ElbEnv) (lbArn : String) :
    List Call × Option String :=
  let tgs := match env.describeTargetGroups lbArn with
    | .error _ => []
    | .ok tgs => tgs
  if env.deleteLoadBalancerFails lbArn then
    ([Call.deleteLoadBalancer lbArn], some ("failed to delete elbv2 " ++ lbArn))
  else
    (Call.deleteLoadBalancer lbArn :: tgs.map Call.deleteTargetGroup, none)

/-- `cleanLoadBalancersV2`: drain the paginated listing while fetching tags,
marking and accumulating the worklist; on a pagination error return the
wrapped error; if the worklist is empty return nil; otherwise delete each
worklisted load balancer unless in dry-run (per-lb failures only logged)
and return nil. -/
def cleanLoadBalancersV2 (commit : Bool) (ignoreTag : String) (env : ElbEnv) :
    CleanResult :=
  let markCalls := lbMarkCalls commit ignoreTag env
  let worklist := lbWorklist commit ignoreTag env
  match env.describeLoadBalancersErr with
  | some e =>
    ⟨markCalls, some ("failed getting list of elbv2 load balancers: " ++ e)⟩
  | none =>
    if worklist.length == 0 then ⟨markCalls, none⟩
    else
      ⟨markCalls ++ (worklist.map
        (fun lb =>
          if commit then (deleteLoadBalancerV2 env lb.loadBalancerArn).1
          else [])).flatten,
        none⟩

/-! ## The polling waiter (`waitUntil`) -/

/-- Possible outcomes of the `waitUntil` loop.  `outOfFuel` is the modelling
artifact for a loop that has not terminated within the allotted number of
iterations. -/
inductive WaitResult
  | timeout
  | checkError (e : String)
  | success
  | cancelled
  | outOfFuel
deriving DecidableEq, Repr

/-- The loop of `waitUntil`, with time made explicit: `now` is the clock at
the top of the iteration, `waitFor` the precomputed deadline, `check i` the
result of the i-th predicate evaluation, and `cancel i` whether the caller's
cancellation wins the select during the i-th sleep.  Sleeping advances the
clock by `interval`. -/
def waitUntilAux (fuel : Nat) (now waitFor interval : Nat)
    (check : Nat → Except String Bool) (cancel : Nat → Bool) (i : Nat) :
    WaitResult :=
  match fuel with
  | 0 => .outOfFuel
  | fuel + 1 =>
    if waitFor < now then .timeout
    else
      match check i with
      | .error e => .checkError e
      | .ok true => .success
      | .ok false =>
        if cancel i then .cancelled
        else waitUntilAux fuel (now + interval) waitFor interval check cancel
          (i + 1)

/-- `waitUntil`: compute the deadline `time.Now().Add(timeout)` and run the
loop from iteration 0. -/
def waitUntil (fuel : Nat) (start timeout interval : Nat)
    (check : Nat → Except String Bool) (cancel : Nat → Bool) : WaitResult :=
  waitUntilAux fuel start (start + timeout) interval check cancel 0

/-! ## Characterizations of the tag scans -/

theorem scanTags2From_fst (t : String) (fl : Bool × Bool) (tags : List Tag) :
    (scanTags2From t fl tags).1 = (fl.1 || hasTagKey tags t) := by
  induction tags generalizing fl with
  | nil => simp [scanTags2From, hasTagKey]
  | cons x xs ih =>
    simp only [scanTags2From, List.foldl_cons] at *
    rw [ih]
    simp only [hasTagKey, List.any_cons, tagSwitch2]
    by_cases h : x.key == t
    · simp [h]
    · by_cases h2 : x.key == DeletionTag <;>
        simp [h, h2, hasTagKey, Bool.or_assoc]

theorem scanTags2From_snd (t : String) (fl : Bool × Bool) (tags : List Tag) :
    (scanTags2From t fl tags).2 =
      (fl.2 || tags.any (fun x => !(x.key == t) && (x.key == DeletionTag))) := by
  induction tags generalizing fl with
  | nil => simp [scanTags2From]
  | cons x xs ih =>
    simp only [scanTags2From, List.foldl_cons] at *
    rw [ih]
    simp only [List.any_cons, tagSwitch2]
    by_cases h : x.key == t
    · simp [h]
    · by_cases h2 : x.key == DeletionTag <;> simp [h, h2, Bool.or_assoc]

theorem scanTags2_fst (t : String) (tags : List Tag) :
    (scanTags2 t tags).1 = hasTagKey tags t := by
  rw [scanTags2, scanTags2From_fst]; simp

theorem scanTags2_snd (t : String) (tags : List Tag) :
    (scanTags2 t tags).2 =
      tags.any (fun x => !(x.key == t) && (x.key == DeletionTag)) := by
  rw [scanTags2, scanTags2From_snd]; simp

/-- When no tag carries the ignore key, the `markedForDeletion` flag is
exactly the presence of `DeletionTag`. -/
theorem scanTags2_snd_of_no_ignore (t : String) (tags : List Tag)
    (h : hasTagKey tags t = false) :
    (scanTags2 t tags).2 = hasTagKey tags DeletionTag := by
  rw [scanTags2_snd]
  induction tags with
  | nil => rfl
  | cons x xs ih =>
    simp only [hasTagKey, List.any_cons, Bool.or_eq_false_iff] at h
    simp only [hasTagKey, List.any_cons] at ih ⊢
    rw [ih h.2]
    simp [h.1]

theorem scanTags2From_append (t : String) (fl : Bool × Bool)
    (xs ys : List Tag) :
    scanTags2From t fl (xs ++ ys) = scanTags2From t (scanTags2From t fl xs) ys := by
  simp [scanTags2From, List.foldl_append]

/-- The nested tag-description loop equals a single scan over the
concatenation of all tag lists. -/
theorem scanTagDescriptions_eq_flatten (t : String) (descs : List (List Tag)) :
    scanTagDescriptions t descs = scanTags2 t descs.flatten := by
  suffices h : ∀ fl, descs.foldl (fun fl tags => scanTags2From t fl tags) fl =
      scanTags2From t fl descs.flatten by
    exact h (false, false)
  induction descs with
  | nil => intro fl; simp [scanTags2From]
  | cons d ds ih =>
    intro fl
    simp only [List.foldl_cons, List.flatten_cons, scanTags2From_append]
    exact ih _

theorem scanVpcTags_ignore (t : String) (tags : List Tag) :
    (scanVpcTags t tags).ignore = hasTagKey tags t := by
  suffices h : ∀ fl : VpcFlags, (tags.foldl (vpcTagSwitch t) fl).ignore =
      (fl.ignore || hasTagKey tags t) by
    rw [scanVpcTags, h]; simp
  induction tags with
  | nil => intro fl; simp [hasTagKey]
  | cons x xs ih =>
    intro fl
    simp only [List.foldl_cons, hasTagKey, List.any_cons] at *
    rw [ih]
    simp only [vpcTagSwitch]
    by_cases h : x.key == t
    · simp [h]
    · by_cases h2 : x.key == DeletionTag
      · simp [h, h2, hasTagKey]
      · by_cases h3 : (x.key == "aws:cloudformation:stack-name" ||
            x.key == "aws:cloudformation:stack-id") = true <;>
          simp [h, h2, h3, hasTagKey]

theorem scanVpcTags_marked (t : String) (tags : List Tag) :
    (scanVpcTags t tags).markedForDeletion =
      tags.any (fun x => !(x.key == t) && (x.key == DeletionTag)) := by
  suffices h : ∀ fl : VpcFlags, (tags.foldl (vpcTagSwitch t) fl).markedForDeletion =
      (fl.markedForDeletion ||
        tags.any (fun x => !(x.key == t) && (x.key == DeletionTag))) by
    rw [scanVpcTags, h]; simp
  induction tags with
  | nil => intro fl; simp
  | cons x xs ih =>
    intro fl
    simp only [List.foldl_cons, List.any_cons] at *
    rw [ih]
    simp only [vpcTagSwitch]
    by_cases h : x.key == t
    · simp [h]
    · by_cases h2 : x.key == DeletionTag
      · simp [h, h2]
      · by_cases h3 : (x.key == "aws:cloudformation:stack-name" ||
            x.key == "aws:cloudformation:stack-id") = true <;>
          simp [h, h2, h3, Bool.or_assoc]

theorem scanVpcTags_cf (t : String) (tags : List Tag) :
    (scanVpcTags t tags).managedByCloudFormation =
      tags.any (fun x => !(x.key == t) && !(x.key == DeletionTag) &&
        (x.key == "aws:cloudformation:stack-name" ||
          x.key == "aws:cloudformation:stack-id")) := by
  suffices h : ∀ fl : VpcFlags, (tags.foldl (vpcTagSwitch t) fl).managedByCloudFormation =
      (fl.managedByCloudFormation ||
        tags.any (fun x => !(x.key == t) && !(x.key == DeletionTag) &&
          (x.key == "aws:cloudformation:stack-name" ||
            x.key == "aws:cloudformation:stack-id"))) by
    rw [scanVpcTags, h]; simp
  induction tags with
  | nil => intro fl; simp
  | cons x xs ih =>
    intro fl
    simp only [List.foldl_cons, List.any_cons] at *
    rw [ih]
    simp only [vpcTagSwitch]
    by_cases h : x.key == t
    · simp [h]
    · by_cases h2 : x.key == DeletionTag
      · simp [h, h2]
      · by_cases h3 : (x.key == "aws:cloudformation:stack-name" ||
            x.key == "aws:cloudformation:stack-id") = true <;>
          simp [h, h2, h3, Bool.or_assoc]

/-! ## Flag corollaries and per-resource step behavior -/

theorem scanVpcTags_marked_of_no_ignore (t : String) (tags : List Tag)
    (h : hasTagKey tags t = false) :
    (scanVpcTags t tags).markedForDeletion = hasTagKey tags DeletionTag := by
  rw [scanVpcTags_marked]
  induction tags with
  | nil => rfl
  | cons x xs ih =>
    simp only [hasTagKey, List.any_cons, Bool.or_eq_false_iff] at h
    simp only [hasTagKey, List.any_cons] at ih ⊢
    rw [ih h.2]
    simp [h.1]

theorem scanVpcTags_cf_of_no_cfkeys (t : String) (tags : List Tag)
    (h1 : hasTagKey tags "aws:cloudformation:stack-name" = false)
    (h2 : hasTagKey tags "aws:cloudformation:stack-id" = false) :
    (scanVpcTags t tags).managedByCloudFormation = false := by
  rw [scanVpcTags_cf]
  simp only [hasTagKey, List.any_eq_false] at h1 h2 ⊢
  intro x hx
  simp [h1 x hx, h2 x hx]

theorem scanVpcTags_cf_of_cfkey (t : String) (tags : List Tag)
    (hig : hasTagKey tags t = false)
    (h : hasTagKey tags "aws:cloudformation:stack-name" = true ∨
      hasTagKey tags "aws:cloudformation:stack-id" = true) :
    (scanVpcTags t tags).managedByCloudFormation = true := by
  rw [scanVpcTags_cf]
  simp only [hasTagKey, List.any_eq_false] at hig
  rw [List.any_eq_true]
  rcases h with h | h <;>
  · simp only [hasTagKey, List.any_eq_true] at h
    obtain ⟨x, hx, hk⟩ := h
    refine ⟨x, hx, ?_⟩
    have hkey := eq_of_beq hk
    have hxt := hig x hx
    rw [hkey] at hxt
    simp only [hkey]
    simp at hxt
    simp [hxt, DeletionTag]

theorem vpcMarkStep_of_ignore (c : Bool) (t : String) (v : Vpc)
    (h : hasTagKey v.tags t = true) : vpcMarkStep c t v = ([], false) := by
  simp [vpcMarkStep, scanVpcTags_ignore, h]

theorem vpcMarkStep_of_default (c : Bool) (t : String) (v : Vpc)
    (h : awsBoolValue v.isDefault = true) : vpcMarkStep c t v = ([], false) := by
  simp [vpcMarkStep, h]

theorem vpcMarkStep_of_cf (c : Bool) (t : String) (v : Vpc)
    (h : hasTagKey v.tags "aws:cloudformation:stack-name" = true ∨
      hasTagKey v.tags "aws:cloudformation:stack-id" = true) :
    vpcMarkStep c t v = ([], false) := by
  by_cases hig : hasTagKey v.tags t = true
  · exact vpcMarkStep_of_ignore c t v hig
  · have hig2 : hasTagKey v.tags t = false := by
      simpa using hig
    have hcf := scanVpcTags_cf_of_cfkey t v.tags hig2 h
    simp [vpcMarkStep, hcf]

theorem vpcMarkStep_unmarked (c : Bool) (t : String) (v : Vpc)
    (hig : hasTagKey v.tags t = false)
    (hdef : awsBoolValue v.isDefault = false)
    (hn : hasTagKey v.tags "aws:cloudformation:stack-name" = false)
    (hi : hasTagKey v.tags "aws:cloudformation:stack-id" = false)
    (hmk : hasTagKey v.tags DeletionTag = false) :
    vpcMarkStep c t v =
      (if c then [Call.createTags v.vpcId DeletionTag] else [], false) := by
  simp [vpcMarkStep, scanVpcTags_ignore, hig, hdef,
    scanVpcTags_cf_of_no_cfkeys t v.tags hn hi,
    scanVpcTags_marked_of_no_ignore t v.tags hig, hmk]

theorem vpcMarkStep_marked (c : Bool) (t : String) (v : Vpc)
    (hig : hasTagKey v.tags t = false)
    (hdef : awsBoolValue v.isDefault = false)
    (hn : hasTagKey v.tags "aws:cloudformation:stack-name" = false)
    (hi : hasTagKey v.tags "aws:cloudformation:stack-id" = false)
    (hmk : hasTagKey v.tags DeletionTag = true) :
    vpcMarkStep c t v = ([], true) := by
  simp [vpcMarkStep, scanVpcTags_ignore, hig, hdef,
    scanVpcTags_cf_of_no_cfkeys t v.tags hn hi,
    scanVpcTags_marked_of_no_ignore t v.tags hig, hmk]

theorem processNetworkInterface_of_ignore (c : Bool) (t : String)
    (ni : NetworkInterface) (h : hasTagKey ni.tagSet t = true) :
    processNetworkInterface c t ni = [] := by
  simp [processNetworkInterface, scanTags2_fst, h]

theorem processNetworkInterface_dryrun (t : String) (ni : NetworkInterface) :
    processNetworkInterface false t ni = [] := by
  simp [processNetworkInterface]

theorem processNetworkInterface_unmarked_commit (t : String)
    (ni : NetworkInterface) (hig : hasTagKey ni.tagSet t = false)
    (hmk : hasTagKey ni.tagSet DeletionTag = false) :
    processNetworkInterface true t ni =
      [Call.createTags ni.networkInterfaceId DeletionTag] := by
  simp [processNetworkInterface, scanTags2_fst, hig,
    scanTags2_snd_of_no_ignore t ni.tagSet hig, hmk]

theorem processNetworkInterface_marked_commit (t : String)
    (ni : NetworkInterface) (hig : hasTagKey ni.tagSet t = false)
    (hmk : hasTagKey ni.tagSet DeletionTag = true) :
    processNetworkInterface true t ni =
      [Call.deleteNetworkInterface ni.networkInterfaceId] := by
  simp [processNetworkInterface, scanTags2_fst, hig,
    scanTags2_snd_of_no_ignore t ni.tagSet hig, hmk]

theorem lbMarkStep_of_tagfetch_error (c : Bool) (t : String) (env : ElbEnv)
    (lb : LoadBalancer) (e : String)
    (h : env.describeTags lb.loadBalancerArn = .error e) :
    lbMarkStep c t env lb = ([], false) := by
  simp [lbMarkStep, h]

theorem lbMarkStep_of_ignore (c : Bool) (t : String) (env : ElbEnv)
    (lb : LoadBalancer) (descs : List (List Tag))
    (h : env.describeTags lb.loadBalancerArn = .ok descs)
    (hig : hasTagKey descs.flatten t = true) :
    lbMarkStep c t env lb = ([], false) := by
  simp [lbMarkStep, h, scanTagDescriptions_eq_flatten, scanTags2_fst, hig]

theorem lbMarkStep_unmarked (c : Bool) (t : String) (env : ElbEnv)
    (lb : LoadBalancer) (descs : List (List Tag))
    (h : env.describeTags lb.loadBalancerArn = .ok descs)
    (hig : hasTagKey descs.flatten t = false)
    (hmk : hasTagKey descs.flatten DeletionTag = false) :
    lbMarkStep c t env lb =
      (if c then [Call.addTags lb.loadBalancerArn DeletionTag] else [], false) := by
  simp [lbMarkStep, h, scanTagDescriptions_eq_flatten, scanTags2_fst, hig,
    scanTags2_snd_of_no_ignore t descs.flatten hig, hmk]

theorem lbMarkStep_marked (c : Bool) (t : String) (env : ElbEnv)
    (lb : LoadBalancer) (descs : List (List Tag))
    (h : env.describeTags lb.loadBalancerArn = .ok descs)
    (hig : hasTagKey descs.flatten t = false)
    (hmk : hasTagKey descs.flatten DeletionTag = true) :
    lbMarkStep c t env lb = ([], true) := by
  simp [lbMarkStep, h, scanTagDescriptions_eq_flatten, scanTags2_fst, hig,
    scanTags2_snd_of_no_ignore t descs.flatten hig, hmk]

/-! ## Trace-shape lemmas -/

theorem flatten_eq_nil_of_all_nil {α : Type} (l : List (List α))
    (h : ∀ x ∈ l, x = []) : l.flatten = [] := by
  induction l with
  | nil => rfl
  | cons x xs ih =>
    simp only [List.flatten_cons, h x (by simp),
      ih (fun y hy => h y (by simp [hy])), List.nil_append]

theorem vpcMarkStep_calls (c : Bool) (t : String) (v : Vpc) :
    ∀ cc ∈ (vpcMarkStep c t v).1, cc = Call.createTags v.vpcId DeletionTag := by
  intro cc hcc
  simp only [vpcMarkStep] at hcc
  split_ifs at hcc <;> simp_all

theorem lbMarkStep_calls (c : Bool) (t : String) (env : ElbEnv)
    (lb : LoadBalancer) :
    ∀ cc ∈ (lbMarkStep c t env lb).1,
      cc = Call.addTags lb.loadBalancerArn DeletionTag := by
  intro cc hcc
  simp only [lbMarkStep] at hcc
  split at hcc
  · simp at hcc
  · split_ifs at hcc <;> simp_all

theorem vpcMarkCalls_shape (c : Bool) (t : String) (env : VpcEnv) :
    ∀ cc ∈ vpcMarkCalls c t env, ∃ id, cc = Call.createTags id DeletionTag := by
  intro cc hcc
  unfold vpcMarkCalls at hcc
  rw [List.mem_flatten] at hcc
  obtain ⟨l, hl, hcl⟩ := hcc
  rw [List.mem_map] at hl
  obtain ⟨v, _, rfl⟩ := hl
  exact ⟨v.vpcId, vpcMarkStep_calls c t v cc hcl⟩

theorem lbMarkCalls_shape (c : Bool) (t : String) (env : ElbEnv) :
    ∀ cc ∈ lbMarkCalls c t env, ∃ arn, cc = Call.addTags arn DeletionTag := by
  intro cc hcc
  unfold lbMarkCalls at hcc
  rw [List.mem_flatten] at hcc
  obtain ⟨l, hl, hcl⟩ := hcc
  rw [List.mem_map] at hl
  obtain ⟨lb, _, rfl⟩ := hl
  exact ⟨lb.loadBalancerArn, lbMarkStep_calls c t env lb cc hcl⟩

theorem deleteNATGateways_calls (env : VpcEnv) (v : String) :
    ∀ cc ∈ (deleteNATGateways env v).1, ∃ id, cc = Call.deleteNatGateway id := by
  intro cc hcc
  unfold deleteNATGateways at hcc
  cases h : env.describeNatGateways v with
  | error e => rw [h] at hcc; simp at hcc
  | ok ids =>
    rw [h] at hcc
    simp only [List.mem_map] at hcc
    obtain ⟨id, _, rfl⟩ := hcc
    exact ⟨id, rfl⟩

theorem igwStep_calls (env : VpcEnv) (v g : String) :
    ∀ cc ∈ igwStep env v g,
      cc = Call.detachInternetGateway g v ∨ cc = Call.deleteInternetGateway g := by
  intro cc hcc
  unfold igwStep at hcc
  split at hcc <;> simp at hcc <;> tauto

theorem deleteInternetGateways_calls (env : VpcEnv) (v : String) :
    ∀ cc ∈ (deleteInternetGateways env v).1,
      (∃ g, cc = Call.detachInternetGateway g v) ∨
        (∃ g, cc = Call.deleteInternetGateway g) := by
  intro cc hcc
  unfold deleteInternetGateways at hcc
  cases h : env.describeInternetGateways v with
  | error e => rw [h] at hcc; simp at hcc
  | ok ids =>
    rw [h] at hcc
    simp only [List.mem_flatten, List.mem_map] at hcc
    obtain ⟨l, ⟨g, _, rfl⟩, hcl⟩ := hcc
    rcases igwStep_calls env v g cc hcl with h1 | h1
    · exact Or.inl ⟨g, h1⟩
    · exact Or.inr ⟨g, h1⟩

theorem deleteRouteTables_calls (env : VpcEnv) (v : String) :
    ∀ cc ∈ (deleteRouteTables env v).1, ∃ id, cc = Call.deleteRouteTable id := by
  intro cc hcc
  unfold deleteRouteTables at hcc
  cases h : env.describeRouteTables v with
  | error e => rw [h] at hcc; simp at hcc
  | ok rts =>
    rw [h] at hcc
    simp only [List.mem_map] at hcc
    obtain ⟨rt, _, rfl⟩ := hcc
    exact ⟨rt.routeTableId, rfl⟩

theorem deleteSubnets_calls (env : VpcEnv) (v : String) :
    ∀ cc ∈ (deleteSubnets env v).1, ∃ id, cc = Call.deleteSubnet id := by
  intro cc hcc
  unfold deleteSubnets at hcc
  cases h : env.describeSubnets v with
  | error e => rw [h] at hcc; simp at hcc
  | ok ids =>
    rw [h] at hcc
    simp only [List.mem_map] at hcc
    obtain ⟨id, _, rfl⟩ := hcc
    exact ⟨id, rfl⟩

/-- No dependency-teardown phase ever issues a `DeleteVpc` call. -/
theorem deleteVpc_not_in_deps (env : VpcEnv) (v id : String) :
    Call.deleteVpc id ∉ (cleanVPCDependencies env v).1 := by
  intro hmem
  unfold cleanVPCDependencies at hmem
  simp only [List.mem_append] at hmem
  rcases hmem with ((h | h) | h) | h
  · obtain ⟨_, hx⟩ := deleteNATGateways_calls env v _ h; exact Call.noConfusion hx
  · rcases deleteInternetGateways_calls env v _ h with ⟨_, hx⟩ | ⟨_, hx⟩ <;>
      exact Call.noConfusion hx
  · obtain ⟨_, hx⟩ := deleteRouteTables_calls env v _ h; exact Call.noConfusion hx
  · obtain ⟨_, hx⟩ := deleteSubnets_calls env v _ h; exact Call.noConfusion hx

/-- `deleteVPC` issues the `DeleteVpc` call for its VPC exactly once. -/
theorem deleteVPC_count_one (env : VpcEnv) (v : String) :
    ((deleteVPC env v).1.count (Call.deleteVpc v)) = 1 := by
  unfold deleteVPC
  simp only [List.count_append]
  rw [List.count_eq_zero.mpr (deleteVpc_not_in_deps env v v)]
  simp [List.count_singleton]

/-- The trace of `deleteLoadBalancerV2` when the target-group listing fails:
just the `DeleteLoadBalancer` call. -/
theorem deleteLoadBalancerV2_tgfetch_error (env : ElbEnv) (arn e : String)
    (h : env.describeTargetGroups arn = .error e) :
    (deleteLoadBalancerV2 env arn).1 = [Call.deleteLoadBalancer arn] := by
  cases hf : env.deleteLoadBalancerFails arn <;>
    simp [deleteLoadBalancerV2, h, hf]

/-- `deleteLoadBalancerV2` issues the `DeleteLoadBalancer` call for its ARN
exactly once. -/
theorem deleteLoadBalancerV2_count_one (env : ElbEnv) (arn : String) :
    ((deleteLoadBalancerV2 env arn).1.count (Call.deleteLoadBalancer arn)) = 1 := by
  unfold deleteLoadBalancerV2
  have htg : ∀ tgs : List String,
      ((tgs.map Call.deleteTargetGroup).count (Call.deleteLoadBalancer arn)) = 0 := by
    intro tgs
    rw [List.count_eq_zero]
    intro hmem
    rw [List.mem_map] at hmem
    obtain ⟨_, _, hx⟩ := hmem
    exact Call.noConfusion hx
  cases hf : env.deleteLoadBalancerFails arn <;>
    cases htgs : env.describeTargetGroups arn <;>
      simp [hf, htgs, List.count_cons, htg]

/-! ## Cleaner-level evaluation equations -/

theorem cleanNetworkInterfaces_ok (c : Bool) (t : String) (env : ENIEnv)
    (nis : List NetworkInterface) (h : env.describeNetworkInterfaces = .ok nis) :
    cleanNetworkInterfaces c t env =
      ⟨(nis.map (processNetworkInterface c t)).flatten, none⟩ := by
  simp only [cleanNetworkInterfaces, h]
  split
  · rename_i hlen
    have hnil : nis = [] := by simpa using hlen
    simp [hnil]
  · rfl

theorem cleanVPCs_ok (c : Bool) (t : String) (env : VpcEnv)
    (h : env.describeVpcsErr = none) :
    cleanVPCs c t env =
      ⟨vpcMarkCalls c t env ++
        ((vpcWorklist c t env).map
          (fun v => if c then (deleteVPC env v.vpcId).1 else [])).flatten,
        none⟩ := by
  simp only [cleanVPCs, h]
  split
  · rename_i hlen
    have hnil : vpcWorklist c t env = [] := by simpa using hlen
    simp [hnil]
  · rfl

theorem cleanVPCs_err (c : Bool) (t : String) (env : VpcEnv) (e : String)
    (h : env.describeVpcsErr = some e) :
    cleanVPCs c t env =
      ⟨vpcMarkCalls c t env, some ("failed getting list of vpcs: " ++ e)⟩ := by
  simp [cleanVPCs, h]

theorem cleanLoadBalancersV2_ok (c : Bool) (t : String) (env : ElbEnv)
    (h : env.describeLoadBalancersErr = none) :
    cleanLoadBalancersV2 c t env =
      ⟨lbMarkCalls c t env ++
        ((lbWorklist c t env).map
          (fun lb =>
            if c then (deleteLoadBalancerV2 env lb.loadBalancerArn).1
            else [])).flatten,
        none⟩ := by
  simp only [cleanLoadBalancersV2, h]
  split
  · rename_i hlen
    have hnil : lbWorklist c t env = [] := by simpa using hlen
    simp [hnil]
  · rfl

theorem cleanLoadBalancersV2_err (c : Bool) (t : String) (env : ElbEnv)
    (e : String) (h : env.describeLoadBalancersErr = some e) :
    cleanLoadBalancersV2 c t env =
      ⟨lbMarkCalls c t env,
        some ("failed getting list of elbv2 load balancers: " ++ e)⟩ := by
  simp [cleanLoadBalancersV2, h]

/-! ## Dry-run lemmas -/

theorem vpcMarkStep_dryrun_calls (t : String) (v : Vpc) :
    (vpcMarkStep false t v).1 = [] := by
  simp only [vpcMarkStep]
  split_ifs <;> simp_all

theorem lbMarkStep_dryrun_calls (t : String) (env : ElbEnv) (lb : LoadBalancer) :
    (lbMarkStep false t env lb).1 = [] := by
  simp only [lbMarkStep]
  split
  · rfl
  · split_ifs <;> simp_all

theorem vpcMarkCalls_dryrun (t : String) (env : VpcEnv) :
    vpcMarkCalls false t env = [] := by
  unfold vpcMarkCalls
  apply flatten_eq_nil_of_all_nil
  intro x hx
  rw [List.mem_map] at hx
  obtain ⟨v, _, rfl⟩ := hx
  exact vpcMarkStep_dryrun_calls t v

theorem lbMarkCalls_dryrun (t : String) (env : ElbEnv) :
    lbMarkCalls false t env = [] := by
  unfold lbMarkCalls
  apply flatten_eq_nil_of_all_nil
  intro x hx
  rw [List.mem_map] at hx
  obtain ⟨lb, _, rfl⟩ := hx
  exact lbMarkStep_dryrun_calls t env lb

/-! ## Result characterization lemmas -/

theorem cleanNetworkInterfaces_result (c : Bool) (t : String) (env : ENIEnv) :
    (cleanNetworkInterfaces c t env).result.isSome =
      isError env.describeNetworkInterfaces := by
  cases h : env.describeNetworkInterfaces with
  | error e => simp [cleanNetworkInterfaces, h, isError]
  | ok nis => rw [cleanNetworkInterfaces_ok c t env nis h]; simp [h, isError]

theorem cleanVPCs_result (c : Bool) (t : String) (env : VpcEnv) :
    (cleanVPCs c t env).result.isSome = env.describeVpcsErr.isSome := by
  cases h : env.describeVpcsErr with
  | none => rw [cleanVPCs_ok c t env h]
  | some e => rw [cleanVPCs_err c t env e h]; simp

theorem cleanLoadBalancersV2_result (c : Bool) (t : String) (env : ElbEnv) :
    (cleanLoadBalancersV2 c t env).result.isSome =
      env.describeLoadBalancersErr.isSome := by
  cases h : env.describeLoadBalancersErr with
  | none => rw [cleanLoadBalancersV2_ok c t env h]
  | some e => rw [cleanLoadBalancersV2_err c t env e h]; simp

/-! ## Worklist-continuation lemmas -/

/-- The trace of `deleteVPC` is the dependency teardown followed by the
`DeleteVpc` call. -/
theorem deleteVPC_trace (env : VpcEnv) (v : String) :
    (deleteVPC env v).1 = (cleanVPCDependencies env v).1 ++ [Call.deleteVpc v] :=
  rfl

theorem deleteVPC_mem_deleteVpc (env : VpcEnv) (v : String) :
    Call.deleteVpc v ∈ (deleteVPC env v).1 := by
  rw [deleteVPC_trace]
  exact List.mem_append_right _ (by simp)

theorem deleteLoadBalancerV2_mem_delete (env : ElbEnv) (arn : String) :
    Call.deleteLoadBalancer arn ∈ (deleteLoadBalancerV2 env arn).1 := by
  cases hf : env.deleteLoadBalancerFails arn <;>
    cases htgs : env.describeTargetGroups arn <;>
      simp [deleteLoadBalancerV2, hf, htgs]

theorem cleanVPCs_attempts_worklist (t : String) (env : VpcEnv) (v : Vpc)
    (he : env.describeVpcsErr = none) (hv : v ∈ vpcWorklist true t env) :
    Call.deleteVpc v.vpcId ∈ (cleanVPCs true t env).trace := by
  rw [cleanVPCs_ok true t env he]
  apply List.mem_append_right
  apply List.mem_flatten.mpr
  refine ⟨(deleteVPC env v.vpcId).1, ?_, deleteVPC_mem_deleteVpc env v.vpcId⟩
  apply List.mem_map.mpr
  exact ⟨v, hv, by simp⟩

theorem cleanLoadBalancersV2_attempts_worklist (t : String) (env : ElbEnv)
    (lb : LoadBalancer) (he : env.describeLoadBalancersErr = none)
    (hlb : lb ∈ lbWorklist true t env) :
    Call.deleteLoadBalancer lb.loadBalancerArn ∈
      (cleanLoadBalancersV2 true t env).trace := by
  rw [cleanLoadBalancersV2_ok true t env he]
  apply List.mem_append_right
  apply List.mem_flatten.mpr
  refine ⟨(deleteLoadBalancerV2 env lb.loadBalancerArn).1, ?_,
    deleteLoadBalancerV2_mem_delete env lb.loadBalancerArn⟩
  apply List.mem_map.mpr
  exact ⟨lb, hlb, by simp⟩

/-! ## Pagination and locality lemmas -/

theorem deleteVPC_pages_irrelevant (env : VpcEnv) (p2 : List (List Vpc))
    (v : String) :
    deleteVPC { env with describeVpcsPages := p2 } v = deleteVPC env v := rfl

theorem cleanVPCs_repage (c : Bool) (t : String) (env : VpcEnv)
    (p2 : List (List Vpc)) (h : p2.flatten = env.describeVpcsPages.flatten) :
    cleanVPCs c t { env with describeVpcsPages := p2 } = cleanVPCs c t env := by
  have h1 : vpcMarkCalls c t { env with describeVpcsPages := p2 } =
      vpcMarkCalls c t env := by
    show (p2.flatten.map (fun v => (vpcMarkStep c t v).1)).flatten =
      (env.describeVpcsPages.flatten.map (fun v => (vpcMarkStep c t v).1)).flatten
    rw [h]
  have h2 : vpcWorklist c t { env with describeVpcsPages := p2 } =
      vpcWorklist c t env := by
    show p2.flatten.filter (fun v => (vpcMarkStep c t v).2) =
      env.describeVpcsPages.flatten.filter (fun v => (vpcMarkStep c t v).2)
    rw [h]
  have h3 : ∀ v, deleteVPC { env with describeVpcsPages := p2 } v =
      deleteVPC env v := fun v => deleteVPC_pages_irrelevant env p2 v
  unfold cleanVPCs
  simp only [h1, h2, h3]

theorem deleteLoadBalancerV2_pages_irrelevant (env : ElbEnv)
    (p2 : List (List LoadBalancer)) (arn : String) :
    deleteLoadBalancerV2 { env with describeLoadBalancersPages := p2 } arn =
      deleteLoadBalancerV2 env arn := rfl

theorem lbMarkStep_pages_irrelevant (c : Bool) (t : String) (env : ElbEnv)
    (p2 : List (List LoadBalancer)) (lb : LoadBalancer) :
    lbMarkStep c t { env with describeLoadBalancersPages := p2 } lb =
      lbMarkStep c t env lb := rfl

theorem cleanLoadBalancersV2_repage (c : Bool) (t : String) (env : ElbEnv)
    (p2 : List (List LoadBalancer))
    (h : p2.flatten = env.describeLoadBalancersPages.flatten) :
    cleanLoadBalancersV2 c t { env with describeLoadBalancersPages := p2 } =
      cleanLoadBalancersV2 c t env := by
  have h1 : lbMarkCalls c t { env with describeLoadBalancersPages := p2 } =
      lbMarkCalls c t env := by
    show (p2.flatten.map
        (fun lb => (lbMarkStep c t { env with describeLoadBalancersPages := p2 } lb).1)).flatten =
      (env.describeLoadBalancersPages.flatten.map
        (fun lb => (lbMarkStep c t env lb).1)).flatten
    simp only [lbMarkStep_pages_irrelevant, h]
  have h2 : lbWorklist c t { env with describeLoadBalancersPages := p2 } =
      lbWorklist c t env := by
    show p2.flatten.filter
        (fun lb => (lbMarkStep c t { env with describeLoadBalancersPages := p2 } lb).2) =
      env.describeLoadBalancersPages.flatten.filter
        (fun lb => (lbMarkStep c t env lb).2)
    simp only [lbMarkStep_pages_irrelevant, h]
  unfold cleanLoadBalancersV2
  simp only [h1, h2, deleteLoadBalancerV2_pages_irrelevant]

theorem cleanVPCs_enum_error_no_deletes (c : Bool) (t : String) (env : VpcEnv)
    (e : String) (h : env.describeVpcsErr = some e) :
    (cleanVPCs c t env).result.isSome = true ∧
      ∀ id, Call.deleteVpc id ∉ (cleanVPCs c t env).trace := by
  rw [cleanVPCs_err c t env e h]
  refine ⟨rfl, ?_⟩
  intro id hmem
  obtain ⟨id2, hx⟩ := vpcMarkCalls_shape c t env _ hmem
  exact Call.noConfusion hx

theorem cleanLoadBalancersV2_enum_error_no_deletes (c : Bool) (t : String)
    (env : ElbEnv) (e : String) (h : env.describeLoadBalancersErr = some e) :
    (cleanLoadBalancersV2 c t env).result.isSome = true ∧
      ∀ arn, Call.deleteLoadBalancer arn ∉ (cleanLoadBalancersV2 c t env).trace := by
  rw [cleanLoadBalancersV2_err c t env e h]
  refine ⟨rfl, ?_⟩
  intro arn hmem
  obtain ⟨arn2, hx⟩ := lbMarkCalls_shape c t env _ hmem
  exact Call.noConfusion hx

/-- A load balancer's classification depends only on the tag response for
that load balancer's ARN. -/
theorem lbMarkStep_local (c : Bool) (t : String) (env env2 : ElbEnv)
    (lb : LoadBalancer)
    (h : env.describeTags lb.loadBalancerArn = env2.describeTags lb.loadBalancerArn) :
    lbMarkStep c t env lb = lbMarkStep c t env2 lb := by
  unfold lbMarkStep
  rw [h]

/-! ## Claim theorems -/

/-- C1: a resource whose tag set contains the scope's IgnoreTag key never
receives a mutating provider call from any cleaner, for every commit flag
and even when it also bears DeletionTag (the ignore case of the tag switch
is tried first, so ignore wins the tie-break).  Per kind: the per-resource
loop body issues no calls and never adds the resource to the deletion
worklist (which is the only path to a delete call), and a cleaner whose
whole listing is ignored issues an empty trace. -/
theorem claim1_ignore_tag_protects :
    (∀ (c : Bool) (t : String) (ni : NetworkInterface),
      hasTagKey ni.tagSet t = true → processNetworkInterface c t ni = []) ∧
    (∀ (c : Bool) (t : String) (v : Vpc),
      hasTagKey v.tags t = true → vpcMarkStep c t v = ([], false)) ∧
    (∀ (c : Bool) (t : String) (env : ElbEnv) (lb : LoadBalancer)
      (descs : List (List Tag)),
      env.describeTags lb.loadBalancerArn = .ok descs →
      hasTagKey descs.flatten t = true → lbMarkStep c t env lb = ([], false)) ∧
    (∀ (c : Bool) (t : String) (env : ENIEnv) (nis : List NetworkInterface),
      env.describeNetworkInterfaces = .ok nis →
      (∀ ni ∈ nis, hasTagKey ni.tagSet t = true) →
      (cleanNetworkInterfaces c t env).trace = []) ∧
    (∀ (c : Bool) (t : String) (env : VpcEnv),
      (∀ v ∈ env.describeVpcsPages.flatten, hasTagKey v.tags t = true) →
      (cleanVPCs c t env).trace = []) ∧
    (∀ (c : Bool) (t : String) (env : ElbEnv),
      (∀ lb ∈ env.describeLoadBalancersPages.flatten, ∀ descs,
        env.describeTags lb.loadBalancerArn = .ok descs →
        hasTagKey descs.flatten t = true) →
      (cleanLoadBalancersV2 c t env).trace = []) := by
  refine ⟨?_, ?_, ?_, ?_, ?_, ?_⟩
  · exact fun c t ni h => processNetworkInterface_of_ignore c t ni h
  · exact fun c t v h => vpcMarkStep_of_ignore c t v h
  · exact fun c t env lb descs h hig => lbMarkStep_of_ignore c t env lb descs h hig
  · intro c t env nis h hall
    rw [cleanNetworkInterfaces_ok c t env nis h]
    apply flatten_eq_nil_of_all_nil
    intro x hx
    rw [List.mem_map] at hx
    obtain ⟨ni, hni, rfl⟩ := hx
    exact processNetworkInterface_of_ignore c t ni (hall ni hni)
  · intro c t env hall
    have hmc : vpcMarkCalls c t env = [] := by
      unfold vpcMarkCalls
      apply flatten_eq_nil_of_all_nil
      intro x hx
      rw [List.mem_map] at hx
      obtain ⟨v, hv, rfl⟩ := hx
      rw [vpcMarkStep_of_ignore c t v (hall v hv)]
    have hwl : vpcWorklist c t env = [] := by
      unfold vpcWorklist
      rw [List.filter_eq_nil_iff]
      intro v hv
      rw [vpcMarkStep_of_ignore c t v (hall v hv)]
      simp
    cases herr : env.describeVpcsErr with
    | some e => rw [cleanVPCs_err c t env e herr]; exact hmc
    | none => rw [cleanVPCs_ok c t env herr]; simp [hmc, hwl]
  · intro c t env hall
    have hstep : ∀ lb ∈ env.describeLoadBalancersPages.flatten,
        lbMarkStep c t env lb = ([], false) := by
      intro lb hlb
      cases hd : env.describeTags lb.loadBalancerArn with
      | error e => exact lbMarkStep_of_tagfetch_error c t env lb e hd
      | ok descs => exact lbMarkStep_of_ignore c t env lb descs hd (hall lb hlb descs hd)
    have hmc : lbMarkCalls c t env = [] := by
      unfold lbMarkCalls
      apply flatten_eq_nil_of_all_nil
      intro x hx
      rw [List.mem_map] at hx
      obtain ⟨lb, hlb, rfl⟩ := hx
      rw [hstep lb hlb]
    have hwl : lbWorklist c t env = [] := by
      unfold lbWorklist
      rw [List.filter_eq_nil_iff]
      intro lb hlb
      rw [hstep lb hlb]
      simp
    cases herr : env.describeLoadBalancersErr with
    | some e => rw [cleanLoadBalancersV2_err c t env e herr]; exact hmc
    | none => rw [cleanLoadBalancersV2_ok c t env herr]; simp [hmc, hwl]

/-- C1 witness: concrete ignored resources of each kind under commit, and
whole passes over listings consisting only of ignored resources. -/
theorem claim1_ignore_tag_protects_witness :
    processNetworkInterface true "keep" ⟨"eni-1", [⟨"keep", "x"⟩]⟩ = [] ∧
    vpcMarkStep true "keep" ⟨"vpc-1", [⟨"keep", "x"⟩], none⟩ = ([], false) ∧
    (cleanNetworkInterfaces true "keep"
      ⟨.ok [⟨"eni-1", [⟨"keep", "x"⟩]⟩]⟩).trace = [] ∧
    (cleanVPCs true "keep"
      ⟨[[⟨"vpc-1", [⟨"keep", "x"⟩], none⟩]], none, fun _ => .ok [],
        fun _ => .ok [], fun _ => false, fun _ => .ok [], fun _ => .ok [],
        fun _ => false⟩).trace = [] := by
  refine ⟨?_, ?_, ?_, ?_⟩
  · exact claim1_ignore_tag_protects.1 true "keep" _ (by decide)
  · exact claim1_ignore_tag_protects.2.1 true "keep" _ (by decide)
  · exact claim1_ignore_tag_protects.2.2.2.1 true "keep" _ _ rfl (by decide)
  · exact claim1_ignore_tag_protects.2.2.2.2.1 true "keep" _ (by decide)

/-- C3: in dry-run mode (commit = false) every cleaner issues an empty
trace of mutating calls, for every provider response.  The cleaners are
pure functions of the provider environment, so an unchanged environment
(guaranteed by the empty trace) makes a second dry-run pass classify
identically. -/
theorem claim3_dryrun_no_mutations (t : String) :
    (∀ env : ENIEnv, (cleanNetworkInterfaces false t env).trace = []) ∧
    (∀ env : VpcEnv, (cleanVPCs false t env).trace = []) ∧
    (∀ env : ElbEnv, (cleanLoadBalancersV2 false t env).trace = []) := by
  refine ⟨?_, ?_, ?_⟩
  · intro env
    cases h : env.describeNetworkInterfaces with
    | error e => simp [cleanNetworkInterfaces, h]
    | ok nis =>
      rw [cleanNetworkInterfaces_ok false t env nis h]
      apply flatten_eq_nil_of_all_nil
      intro x hx
      rw [List.mem_map] at hx
      obtain ⟨ni, _, rfl⟩ := hx
      exact processNetworkInterface_dryrun t ni
  · intro env
    cases h : env.describeVpcsErr with
    | some e => rw [cleanVPCs_err false t env e h]; exact vpcMarkCalls_dryrun t env
    | none =>
      rw [cleanVPCs_ok false t env h]
      simp [vpcMarkCalls_dryrun t env]
  · intro env
    cases h : env.describeLoadBalancersErr with
    | some e =>
      rw [cleanLoadBalancersV2_err false t env e h]
      exact lbMarkCalls_dryrun t env
    | none =>
      rw [cleanLoadBalancersV2_ok false t env h]
      simp [lbMarkCalls_dryrun t env]

/-- C10: `cleanVPCDependencies` returns nil for every environment and VPC
(each phase's error is computed and discarded), so the error branch in
`deleteVPC` can never run, and the `DeleteVpc` call is issued after the
teardown trace regardless of any teardown failure. -/
theorem claim10_dependencies_never_fail (env : VpcEnv) (v : String) :
    (cleanVPCDependencies env v).2 = none ∧
      (deleteVPC env v).1 = (cleanVPCDependencies env v).1 ++ [Call.deleteVpc v] :=
  ⟨rfl, deleteVPC_trace env v⟩

/-- C4: each cleaner returns a non-nil error exactly when its initial
enumeration fails; per-resource failures (tagging, deleting, dependency
teardown — all modelled by the failure-selector functions of the
environment, over which the statements quantify) leave the result nil,
and every worklisted resource still gets its delete call attempted. -/
theorem claim4_error_only_from_enumeration :
    (∀ (c : Bool) (t : String) (env : ENIEnv),
      (cleanNetworkInterfaces c t env).result.isSome =
        isError env.describeNetworkInterfaces) ∧
    (∀ (c : Bool) (t : String) (env : VpcEnv),
      (cleanVPCs c t env).result.isSome = env.describeVpcsErr.isSome) ∧
    (∀ (c : Bool) (t : String) (env : ElbEnv),
      (cleanLoadBalancersV2 c t env).result.isSome =
        env.describeLoadBalancersErr.isSome) ∧
    (∀ (t : String) (env : VpcEnv) (v : Vpc),
      env.describeVpcsErr = none → v ∈ vpcWorklist true t env →
      Call.deleteVpc v.vpcId ∈ (cleanVPCs true t env).trace) ∧
    (∀ (t : String) (env : ElbEnv) (lb : LoadBalancer),
      env.describeLoadBalancersErr = none → lb ∈ lbWorklist true t env →
      Call.deleteLoadBalancer lb.loadBalancerArn ∈
        (cleanLoadBalancersV2 true t env).trace) :=
  ⟨cleanNetworkInterfaces_result, cleanVPCs_result, cleanLoadBalancersV2_result,
    fun t env v he hv => cleanVPCs_attempts_worklist t env v he hv,
    fun t env lb he hlb => cleanLoadBalancersV2_attempts_worklist t env lb he hlb⟩

/-- C4 witness: a pass over two marked VPCs where deleting the first one
fails still attempts the `DeleteVpc` call for the second, and the pass
result is nil. -/
theorem claim4_error_only_from_enumeration_witness :
    Call.deleteVpc "vpc-b" ∈
      (cleanVPCs true "keep"
        ⟨[[⟨"vpc-a", [⟨DeletionTag, "true"⟩], none⟩,
           ⟨"vpc-b", [⟨DeletionTag, "true"⟩], none⟩]], none,
          fun _ => .ok [], fun _ => .ok [], fun _ => false,
          fun _ => .ok [], fun _ => .ok [],
          fun v => v == "vpc-a"⟩).trace ∧
    (cleanVPCs true "keep"
      ⟨[[⟨"vpc-a", [⟨DeletionTag, "true"⟩], none⟩,
         ⟨"vpc-b", [⟨DeletionTag, "true"⟩], none⟩]], none,
        fun _ => .ok [], fun _ => .ok [], fun _ => false,
        fun _ => .ok [], fun _ => .ok [],
        fun v => v == "vpc-a"⟩).result.isSome = false :=
  ⟨claim4_error_only_from_enumeration.2.2.2.1 "keep" _
      ⟨"vpc-b", [⟨DeletionTag, "true"⟩], none⟩ rfl (by decide),
    claim4_error_only_from_enumeration.2.1 true "keep" _⟩

/-- C5: within one VPC deletion, the trace is exactly the NAT-gateway
phase, then the internet-gateway phase, then the route-table phase, then
the subnet phase, and only then the `DeleteVpc` call; each phase issues
only its own kind of call; within the internet-gateway phase a gateway
whose detach fails gets no delete call, while the other listed gateways
are still processed. -/
theorem claim5_teardown_order :
    (∀ (env : VpcEnv) (v : String),
      (deleteVPC env v).1 =
        (deleteNATGateways env v).1 ++ (deleteInternetGateways env v).1 ++
          (deleteRouteTables env v).1 ++ (deleteSubnets env v).1 ++
          [Call.deleteVpc v]) ∧
    (∀ (env : VpcEnv) (v : String), ∀ cc ∈ (deleteNATGateways env v).1,
      ∃ id, cc = Call.deleteNatGateway id) ∧
    (∀ (env : VpcEnv) (v : String), ∀ cc ∈ (deleteInternetGateways env v).1,
      (∃ g, cc = Call.detachInternetGateway g v) ∨
        (∃ g, cc = Call.deleteInternetGateway g)) ∧
    (∀ (env : VpcEnv) (v : String), ∀ cc ∈ (deleteRouteTables env v).1,
      ∃ id, cc = Call.deleteRouteTable id) ∧
    (∀ (env : VpcEnv) (v : String), ∀ cc ∈ (deleteSubnets env v).1,
      ∃ id, cc = Call.deleteSubnet id) ∧
    (∀ (env : VpcEnv) (v g : String), env.detachIgwFails g = true →
      igwStep env v g = [Call.detachInternetGateway g v]) ∧
    (∀ (env : VpcEnv) (v g : String), env.detachIgwFails g = false →
      igwStep env v g =
        [Call.detachInternetGateway g v, Call.deleteInternetGateway g]) ∧
    (∀ (env : VpcEnv) (v : String) (ids : List String),
      env.describeInternetGateways v = .ok ids →
      (deleteInternetGateways env v).1 = (ids.map (igwStep env v)).flatten) := by
  refine ⟨?_, deleteNATGateways_calls, deleteInternetGateways_calls,
    deleteRouteTables_calls, deleteSubnets_calls, ?_, ?_, ?_⟩
  · intro env v
    rw [deleteVPC_trace]
    unfold cleanVPCDependencies
    simp [List.append_assoc]
  · intro env v g h
    unfold igwStep
    rw [h]
    simp
  · intro env v g h
    unfold igwStep
    rw [h]
    simp
  · intro env v ids h
    unfold deleteInternetGateways
    rw [h]

/-- C5 witness: a VPC with one NAT gateway, two internet gateways (the
first one's detach fails), one non-main route table and one subnet
produces the phase calls in order, skipping only the failed gateway's
delete. -/
theorem claim5_teardown_order_witness :
    igwStep
      ⟨[], none, fun _ => .ok ["nat-1"], fun _ => .ok ["igw-1", "igw-2"],
        fun g => g == "igw-1", fun _ => .ok [⟨"rt-1", [some false]⟩],
        fun _ => .ok ["sub-1"], fun _ => false⟩
      "vpc-1" "igw-1" = [Call.detachInternetGateway "igw-1" "vpc-1"] ∧
    (deleteInternetGateways
      ⟨[], none, fun _ => .ok ["nat-1"], fun _ => .ok ["igw-1", "igw-2"],
        fun g => g == "igw-1", fun _ => .ok [⟨"rt-1", [some false]⟩],
        fun _ => .ok ["sub-1"], fun _ => false⟩
      "vpc-1").1 =
      (["igw-1", "igw-2"].map
        (igwStep
          ⟨[], none, fun _ => .ok ["nat-1"], fun _ => .ok ["igw-1", "igw-2"],
            fun g => g == "igw-1", fun _ => .ok [⟨"rt-1", [some false]⟩],
            fun _ => .ok ["sub-1"], fun _ => false⟩
          "vpc-1")).flatten :=
  ⟨claim5_teardown_order.2.2.2.2.2.1 _ "vpc-1" "igw-1" rfl,
    claim5_teardown_order.2.2.2.2.2.2.2 _ "vpc-1" ["igw-1", "igw-2"] rfl⟩

/-- C6: categorically non-deletable resources get neither a mark call nor a
worklist entry even under commit with no ignore tag: a default VPC, a VPC
carrying either CloudFormation stack tag, and (for the route-table phase)
a table with a main association is never passed to the delete call.  The
step results hold for every tag set and commit flag, so the exclusions
override the tag classification. -/
theorem claim6_categorical_exclusions :
    (∀ (c : Bool) (t : String) (v : Vpc), awsBoolValue v.isDefault = true →
      vpcMarkStep c t v = ([], false)) ∧
    (∀ (c : Bool) (t : String) (v : Vpc),
      hasTagKey v.tags "aws:cloudformation:stack-name" = true ∨
        hasTagKey v.tags "aws:cloudformation:stack-id" = true →
      vpcMarkStep c t v = ([], false)) ∧
    (∀ (env : VpcEnv) (v : String) (rts : List RouteTable) (rt : RouteTable),
      env.describeRouteTables v = .ok rts → rt ∈ rts → rtIsMain rt = true →
      (∀ rt2 ∈ rts, rt2.routeTableId = rt.routeTableId → rtIsMain rt2 = true) →
      Call.deleteRouteTable rt.routeTableId ∉ (deleteRouteTables env v).1) := by
  refine ⟨vpcMarkStep_of_default, vpcMarkStep_of_cf, ?_⟩
  intro env v rts rt h hmem hmain huniq hin
  unfold deleteRouteTables at hin
  rw [h] at hin
  rw [List.mem_map] at hin
  obtain ⟨rt2, hfil, heq⟩ := hin
  rw [List.mem_filter] at hfil
  have hid : rt2.routeTableId = rt.routeTableId := by
    injection heq
  have := huniq rt2 hfil.1 hid
  rw [this] at hfil
  simp at hfil

/-- C6 witness: a default VPC with no tags, a CloudFormation-tagged VPC,
and a main route table alongside a non-main one, all under commit. -/
theorem claim6_categorical_exclusions_witness :
    vpcMarkStep true "keep" ⟨"vpc-d", [], some true⟩ = ([], false) ∧
    vpcMarkStep true "keep"
      ⟨"vpc-cf", [⟨"aws:cloudformation:stack-name", "s"⟩], none⟩ = ([], false) ∧
    Call.deleteRouteTable "rt-main" ∉
      (deleteRouteTables
        ⟨[], none, fun _ => .ok [], fun _ => .ok [], fun _ => false,
          fun _ => .ok [⟨"rt-main", [some true]⟩, ⟨"rt-x", [some false]⟩],
          fun _ => .ok [], fun _ => false⟩ "vpc-1").1 :=
  ⟨claim6_categorical_exclusions.1 true "keep" _ rfl,
    claim6_categorical_exclusions.2.1 true "keep" _ (Or.inl (by decide)),
    claim6_categorical_exclusions.2.2 _ "vpc-1"
      [⟨"rt-main", [some true]⟩, ⟨"rt-x", [some false]⟩]
      ⟨"rt-main", [some true]⟩ rfl (by decide) (by decide) (by decide)⟩

/-- C7: a failed tag fetch for one load balancer makes its loop step issue
no calls and keep it off the worklist; a failed target-group fetch during
deletion leaves the trace at exactly the `DeleteLoadBalancer` call (no
target-group deletes); a load balancer's classification depends only on
the tag response for its own ARN; and a concrete two-balancer pass whose
first tag fetch fails still marks, worklists and deletes the second. -/
theorem claim7_context_fetch_skip :
    (∀ (c : Bool) (t : String) (env : ElbEnv) (lb : LoadBalancer) (e : String),
      env.describeTags lb.loadBalancerArn = .error e →
      lbMarkStep c t env lb = ([], false)) ∧
    (∀ (env : ElbEnv) (arn e : String),
      env.describeTargetGroups arn = .error e →
      (deleteLoadBalancerV2 env arn).1 = [Call.deleteLoadBalancer arn]) ∧
    (∀ (c : Bool) (t : String) (env env2 : ElbEnv) (lb : LoadBalancer),
      env.describeTags lb.loadBalancerArn = env2.describeTags lb.loadBalancerArn →
      lbMarkStep c t env lb = lbMarkStep c t env2 lb) ∧
    (cleanLoadBalancersV2 true "keep"
      ⟨[[⟨"arn-bad", "lb-bad"⟩, ⟨"arn-good", "lb-good"⟩]], none,
        fun arn => if arn == "arn-bad" then .error "boom"
          else .ok [[⟨DeletionTag, "true"⟩]],
        fun _ => .ok [], fun _ => false⟩).trace =
      [Call.deleteLoadBalancer "arn-good"] := by
  refine ⟨lbMarkStep_of_tagfetch_error, deleteLoadBalancerV2_tgfetch_error,
    lbMarkStep_local, ?_⟩
  decide

/-- C7 witness: concrete failing tag fetch and failing target-group
fetch. -/
theorem claim7_context_fetch_skip_witness :
    lbMarkStep true "keep"
      ⟨[], none, fun _ => .error "denied", fun _ => .ok [], fun _ => false⟩
      ⟨"arn-1", "lb-1"⟩ = ([], false) ∧
    (deleteLoadBalancerV2
      ⟨[], none, fun _ => .ok [], fun _ => .error "denied", fun _ => false⟩
      "arn-1").1 = [Call.deleteLoadBalancer "arn-1"] :=
  ⟨claim7_context_fetch_skip.1 true "keep" _ _ "denied" rfl,
    claim7_context_fetch_skip.2.1 _ "arn-1" "denied" rfl⟩

/-- C8: the classification, worklist and delete decisions of the paginated
cleaners depend only on the concatenation of all delivered pages — any
re-paging of the same resources (including interposing empty non-final
pages) yields the identical pass — and when pagination fails the pass
returns a non-nil error and no delete call is ever issued, so a partial
listing is never treated as "no resources". -/
theorem claim8_pagination_drained :
    (∀ (c : Bool) (t : String) (env : VpcEnv) (p2 : List (List Vpc)),
      p2.flatten = env.describeVpcsPages.flatten →
      cleanVPCs c t { env with describeVpcsPages := p2 } = cleanVPCs c t env) ∧
    (∀ (c : Bool) (t : String) (env : ElbEnv) (p2 : List (List LoadBalancer)),
      p2.flatten = env.describeLoadBalancersPages.flatten →
      cleanLoadBalancersV2 c t { env with describeLoadBalancersPages := p2 } =
        cleanLoadBalancersV2 c t env) ∧
    (∀ (c : Bool) (t : String) (env : VpcEnv) (e : String),
      env.describeVpcsErr = some e →
      (cleanVPCs c t env).result.isSome = true ∧
        ∀ id, Call.deleteVpc id ∉ (cleanVPCs c t env).trace) ∧
    (∀ (c : Bool) (t : String) (env : ElbEnv) (e : String),
      env.describeLoadBalancersErr = some e →
      (cleanLoadBalancersV2 c t env).result.isSome = true ∧
        ∀ arn, Call.deleteLoadBalancer arn ∉ (cleanLoadBalancersV2 c t env).trace) :=
  ⟨cleanVPCs_repage, cleanLoadBalancersV2_repage,
    cleanVPCs_enum_error_no_deletes, cleanLoadBalancersV2_enum_error_no_deletes⟩

/-- C8 witness: splitting a one-page listing into an empty page followed by
the same resources changes nothing, and a failed pagination after one
delivered page of marked VPCs reports an error and deletes nothing. -/
theorem claim8_pagination_drained_witness :
    cleanVPCs true "keep"
      { describeVpcsPages := [[], [⟨"vpc-1", [⟨DeletionTag, "true"⟩], none⟩], []],
        describeVpcsErr := none, describeNatGateways := fun _ => .ok [],
        describeInternetGateways := fun _ => .ok [], detachIgwFails := fun _ => false,
        describeRouteTables := fun _ => .ok [], describeSubnets := fun _ => .ok [],
        deleteVpcFails := fun _ => false } =
      cleanVPCs true "keep"
        ⟨[[⟨"vpc-1", [⟨DeletionTag, "true"⟩], none⟩]], none, fun _ => .ok [],
          fun _ => .ok [], fun _ => false, fun _ => .ok [], fun _ => .ok [],
          fun _ => false⟩ ∧
    (cleanVPCs true "keep"
      ⟨[[⟨"vpc-1", [⟨DeletionTag, "true"⟩], none⟩]], some "net down",
        fun _ => .ok [], fun _ => .ok [], fun _ => false, fun _ => .ok [],
        fun _ => .ok [], fun _ => false⟩).result.isSome = true :=
  ⟨claim8_pagination_drained.1 true "keep"
      ⟨[[⟨"vpc-1", [⟨DeletionTag, "true"⟩], none⟩]], none, fun _ => .ok [],
        fun _ => .ok [], fun _ => false, fun _ => .ok [], fun _ => .ok [],
        fun _ => false⟩
      [[], [⟨"vpc-1", [⟨DeletionTag, "true"⟩], none⟩], []] rfl,
    (claim8_pagination_drained.2.2.1 true "keep" _ "net down" rfl).1⟩

/-- C9: one iteration of the `waitUntil` loop behaves as specified: a
deadline already passed at the top returns the timeout error with the same
result for every predicate (the predicate is not evaluated); otherwise a
predicate error is returned immediately, done returns nil, cancellation
during the sleep returns the cancellation error, and otherwise the loop
recurses with the clock advanced by the interval. -/
theorem claim9_waitUntil_loop :
    (∀ (fuel now waitFor interval : Nat) (check : Nat → Except String Bool)
      (cancel : Nat → Bool) (i : Nat), waitFor < now →
      waitUntilAux (fuel + 1) now waitFor interval check cancel i = .timeout) ∧
    (∀ (fuel now waitFor interval : Nat)
      (check check2 : Nat → Except String Bool) (cancel cancel2 : Nat → Bool)
      (i : Nat), waitFor < now →
      waitUntilAux (fuel + 1) now waitFor interval check cancel i =
        waitUntilAux (fuel + 1) now waitFor interval check2 cancel2 i) ∧
    (∀ (fuel now waitFor interval : Nat) (check : Nat → Except String Bool)
      (cancel : Nat → Bool) (i : Nat) (e : String), ¬ waitFor < now →
      check i = .error e →
      waitUntilAux (fuel + 1) now waitFor interval check cancel i =
        .checkError e) ∧
    (∀ (fuel now waitFor interval : Nat) (check : Nat → Except String Bool)
      (cancel : Nat → Bool) (i : Nat), ¬ waitFor < now → check i = .ok true →
      waitUntilAux (fuel + 1) now waitFor interval check cancel i = .success) ∧
    (∀ (fuel now waitFor interval : Nat) (check : Nat → Except String Bool)
      (cancel : Nat → Bool) (i : Nat), ¬ waitFor < now → check i = .ok false →
      cancel i = true →
      waitUntilAux (fuel + 1) now waitFor interval check cancel i = .cancelled) ∧
    (∀ (fuel now waitFor interval : Nat) (check : Nat → Except String Bool)
      (cancel : Nat → Bool) (i : Nat), ¬ waitFor < now → check i = .ok false →
      cancel i = false →
      waitUntilAux (fuel + 1) now waitFor interval check cancel i =
        waitUntilAux fuel (now + interval) waitFor interval check cancel (i + 1)) ∧
    (∀ (fuel start timeout interval : Nat) (check : Nat → Except String Bool)
      (cancel : Nat → Bool),
      waitUntil fuel start timeout interval check cancel =
        waitUntilAux fuel start (start + timeout) interval check cancel 0) := by
  refine ⟨?_, ?_, ?_, ?_, ?_, ?_, fun _ _ _ _ _ _ => rfl⟩
  · intro fuel now waitFor interval check cancel i h
    unfold waitUntilAux
    rw [if_pos h]
  · intro fuel now waitFor interval check check2 cancel cancel2 i h
    unfold waitUntilAux
    rw [if_pos h, if_pos h]
  · intro fuel now waitFor interval check cancel i e h hc
    unfold waitUntilAux
    rw [if_neg h, hc]
  · intro fuel now waitFor interval check cancel i h hc
    unfold waitUntilAux
    rw [if_neg h, hc]
  · intro fuel now waitFor interval check cancel i h hc hcan
    unfold waitUntilAux
    rw [if_neg h, hc]
    simp [hcan]
  · intro fuel now waitFor interval check cancel i h hc hcan
    conv_lhs => rw [waitUntilAux]
    rw [if_neg h, hc, hcan]
    rfl

/-- C9 witness: concrete loop iterations exercising the timeout, error,
success, cancellation and retry branches. -/
theorem claim9_waitUntil_loop_witness :
    waitUntilAux 1 7 5 1 (fun _ => .ok false) (fun _ => false) 0 = .timeout ∧
    waitUntilAux 1 0 5 1 (fun _ => .error "boom") (fun _ => false) 0 =
      .checkError "boom" ∧
    waitUntilAux 1 0 5 1 (fun _ => .ok true) (fun _ => false) 0 = .success ∧
    waitUntilAux 1 0 5 1 (fun _ => .ok false) (fun _ => true) 0 = .cancelled ∧
    waitUntilAux 3 0 5 2 (fun _ => .ok false) (fun _ => false) 0 =
      waitUntilAux 2 2 5 2 (fun _ => .ok false) (fun _ => false) 1 :=
  ⟨claim9_waitUntil_loop.1 0 7 5 1 _ _ 0 (by decide),
    claim9_waitUntil_loop.2.2.1 0 0 5 1 _ _ 0 "boom" (by decide) rfl,
    claim9_waitUntil_loop.2.2.2.1 0 0 5 1 _ _ 0 (by decide) rfl,
    claim9_waitUntil_loop.2.2.2.2.1 0 0 5 1 _ _ 0 (by decide) rfl rfl,
    claim9_waitUntil_loop.2.2.2.2.2.1 2 0 5 2 _ _ 0 (by decide) rfl rfl⟩

/-- C2 counterexample: a default VPC with no tags at all — so without the
ignore tag and without DeletionTag — processed with commit = true receives
zero add-tag calls (the whole pass issues an empty trace), contradicting
the claim that every non-ignored unmarked resource receives exactly one
add-tag call. -/
theorem claim2_counterexample :
    (cleanVPCs true "keep"
      ⟨[[⟨"vpc-default", [], some true⟩]], none, fun _ => .ok [],
        fun _ => .ok [], fun _ => false, fun _ => .ok [], fun _ => .ok [],
        fun _ => false⟩).trace = [] := by
  decide

/-- C2 (amended): for every resource without the ignore tag and, for VPCs,
not categorically excluded (not a default VPC, not CloudFormation-managed):
with commit = true an unmarked resource gets exactly the one add-tag call
and no worklist entry (hence no delete in the pass that first observes it),
a marked resource gets no mark call, joins the worklist, and its deletion
routine issues exactly one delete call for it; with commit = false the
loop step issues no calls. -/
theorem claim2_mark_delete_table :
    (∀ (t : String) (ni : NetworkInterface), hasTagKey ni.tagSet t = false →
      (hasTagKey ni.tagSet DeletionTag = false →
        processNetworkInterface true t ni =
          [Call.createTags ni.networkInterfaceId DeletionTag] ∧
        processNetworkInterface false t ni = []) ∧
      (hasTagKey ni.tagSet DeletionTag = true →
        processNetworkInterface true t ni =
          [Call.deleteNetworkInterface ni.networkInterfaceId] ∧
        processNetworkInterface false t ni = [])) ∧
    (∀ (t : String) (v : Vpc), hasTagKey v.tags t = false →
      awsBoolValue v.isDefault = false →
      hasTagKey v.tags "aws:cloudformation:stack-name" = false →
      hasTagKey v.tags "aws:cloudformation:stack-id" = false →
      (hasTagKey v.tags DeletionTag = false →
        vpcMarkStep true t v = ([Call.createTags v.vpcId DeletionTag], false) ∧
        vpcMarkStep false t v = ([], false)) ∧
      (hasTagKey v.tags DeletionTag = true →
        (∀ c, vpcMarkStep c t v = ([], true)) ∧
        ∀ env : VpcEnv,
          ((deleteVPC env v.vpcId).1.count (Call.deleteVpc v.vpcId)) = 1)) ∧
    (∀ (t : String) (env : ElbEnv) (lb : LoadBalancer)
      (descs : List (List Tag)),
      env.describeTags lb.loadBalancerArn = .ok descs →
      hasTagKey descs.flatten t = false →
      (hasTagKey descs.flatten DeletionTag = false →
        lbMarkStep true t env lb =
          ([Call.addTags lb.loadBalancerArn DeletionTag], false) ∧
        lbMarkStep false t env lb = ([], false)) ∧
      (hasTagKey descs.flatten DeletionTag = true →
        (∀ c, lbMarkStep c t env lb = ([], true)) ∧
        ((deleteLoadBalancerV2 env lb.loadBalancerArn).1.count
          (Call.deleteLoadBalancer lb.loadBalancerArn)) = 1)) := by
  refine ⟨?_, ?_, ?_⟩
  · intro t ni hig
    refine ⟨fun hmk => ⟨?_, ?_⟩, fun hmk => ⟨?_, ?_⟩⟩
    · exact processNetworkInterface_unmarked_commit t ni hig hmk
    · exact processNetworkInterface_dryrun t ni
    · exact processNetworkInterface_marked_commit t ni hig hmk
    · exact processNetworkInterface_dryrun t ni
  · intro t v hig hdef hn hi
    refine ⟨fun hmk => ⟨?_, ?_⟩, fun hmk => ⟨?_, ?_⟩⟩
    · simpa using vpcMarkStep_unmarked true t v hig hdef hn hi hmk
    · simpa using vpcMarkStep_unmarked false t v hig hdef hn hi hmk
    · exact fun c => vpcMarkStep_marked c t v hig hdef hn hi hmk
    · exact fun env => deleteVPC_count_one env v.vpcId
  · intro t env lb descs h hig
    refine ⟨fun hmk => ⟨?_, ?_⟩, fun hmk => ⟨?_, ?_⟩⟩
    · simpa using lbMarkStep_unmarked true t env lb descs h hig hmk
    · simpa using lbMarkStep_unmarked false t env lb descs h hig hmk
    · exact fun c => lbMarkStep_marked c t env lb descs h hig hmk
    · exact deleteLoadBalancerV2_count_one env lb.loadBalancerArn

/-- C2 witness: an untagged network interface gets exactly the add-tag
call under commit and nothing in dry-run, and a DeletionTag-marked VPC
joins the worklist with exactly one `DeleteVpc` call issued for it. -/
theorem claim2_mark_delete_table_witness :
    processNetworkInterface true "keep" ⟨"eni-1", []⟩ =
      [Call.createTags "eni-1" DeletionTag] ∧
    processNetworkInterface false "keep" ⟨"eni-1", []⟩ = [] ∧
    vpcMarkStep true "keep" ⟨"vpc-1", [⟨DeletionTag, "x"⟩], none⟩ = ([], true) ∧
    ((deleteVPC
      ⟨[], none, fun _ => .ok ["nat-1"], fun _ => .ok ["igw-1"],
        fun _ => false, fun _ => .ok [], fun _ => .ok ["sub-1"],
        fun _ => true⟩ "vpc-1").1.count (Call.deleteVpc "vpc-1")) = 1 := by
  refine ⟨?_, ?_, ?_, ?_⟩
  · exact ((claim2_mark_delete_table.1 "keep" ⟨"eni-1", []⟩ rfl).1 rfl).1
  · exact ((claim2_mark_delete_table.1 "keep" ⟨"eni-1", []⟩ rfl).1 rfl).2
  · exact ((claim2_mark_delete_table.2.1 "keep" ⟨"vpc-1", [⟨DeletionTag, "x"⟩], none⟩
      (by decide) rfl (by decide) (by decide)).2 (by decide)).1 true
  · exact ((claim2_mark_delete_table.2.1 "keep" ⟨"vpc-1", [⟨DeletionTag, "x"⟩], none⟩
      (by decide) rfl (by decide) (by decide)).2 (by decide)).2 _

end AwsJanitor
